import Mathlib

/-!
Shallow embedding of `src/univalue/lib/univalue_get.cpp`: the strict numeric
string parsers (`ParsePrechecks`, `ParseInt32`, `ParseInt64`, `ParseUint64`,
`ParseDouble`) and the typed accessors of `UniValue`.

Conventions of the embedding: C++ strings are `List Char`; the C++ exception
channel is `Except String`; a parser's nullable output pointer becomes a
`Bool` flag (pointer non-null?) plus an `Option` holding what was written;
machine integers are `Int`/`Nat` with explicit clamping or wrapping exactly
where the code converts or the C primitives saturate.
-/

/-- Modelled from the spec: `json_isspace` (declared in `univalue.h`, which is
not part of this fragment) — the ASCII whitespace test that `ParsePrechecks`
applies to the first and last character. -/
def json_isspace (c : Char) : Bool :=
  c == ' ' || c == '\t' || c == '\n' || c == '\x0b' || c == '\x0c' || c == '\r'

/-- C-locale `isspace` on ASCII input, used by the `strtol` family to skip
leading whitespace; on ASCII it is the same character set as the modelled
`json_isspace`. -/
def c_isspace (c : Char) : Bool := json_isspace c

/-- Decimal digit test of the C conversion primitives (`'0' <= c && c <= '9'`),
written as the equivalent tenfold enumeration. -/
def isDigit (c : Char) : Bool :=
  c == '0' || c == '1' || c == '2' || c == '3' || c == '4' ||
  c == '5' || c == '6' || c == '7' || c == '8' || c == '9'

/-- Numeric value of a decimal digit character. -/
def digitVal (c : Char) : Nat := c.toNat - '0'.toNat

/-- The NUL terminator byte. -/
def nulChar : Char := Char.ofNat 0

/-- The content that `str.c_str()` exposes to the C conversion primitives:
everything before the first NUL byte. -/
def cstrOf (s : List Char) : List Char := s.takeWhile (fun c => !decide (c = nulChar))

/-- `strlen(str.c_str())` of the model. -/
def cstrLen (s : List Char) : Nat := (cstrOf s).length

/-- Shared precheck of all four parsers: reject the empty string, leading or
trailing (json-)whitespace, and embedded NUL bytes (`size() != strlen`). -/
def ParsePrechecks (str : List Char) : Bool :=
  if str.isEmpty then false
  else if decide (1 ≤ str.length) &&
      (json_isspace (str.headD nulChar) || json_isspace (str.getLastD nulChar)) then false
  else if str.length ≠ cstrLen str then false
  else true

/-- Drop leading C whitespace, as the `strtol` family does. -/
def dropSpace : List Char → List Char
  | [] => []
  | c :: cs => if c_isspace c then dropSpace cs else c :: cs

/-- Split an optional leading sign: `(minus-seen?, rest)`. -/
def signSplit (s : List Char) : Bool × List Char :=
  match s with
  | [] => (false, [])
  | c :: cs => if c = '-' then (true, cs) else if c = '+' then (false, cs) else (false, c :: cs)

/-- Accumulate a run of decimal digits into `acc` (most significant first),
returning the value and the unconsumed rest. -/
def scanDigits : List Char → Nat → Nat × List Char
  | [], acc => (acc, [])
  | c :: cs, acc => if isDigit c then scanDigits cs (10 * acc + digitVal c) else (acc, c :: cs)

/-- Common scan of the `strtol`/`strtoll`/`strtoull` base-10 subject sequence:
skip leading C whitespace, then an optional sign, then decimal digits.
`none` when no digit is consumed (no conversion, `endp` stays at the start);
otherwise the sign, the magnitude and the unconsumed rest. -/
def strtoScan (s : List Char) : Option (Bool × Nat × List Char) :=
  let p := signSplit (dropSpace s)
  match p.2 with
  | [] => none
  | c :: cs => if isDigit c then some (p.1, scanDigits (c :: cs) 0) else none

def int32Min : Int := -2147483648

def int32Max : Int := 2147483647

def int64Min : Int := -9223372036854775808

def int64Max : Int := 9223372036854775807

def uint64Max : Nat := 18446744073709551615

/-- Saturation of `strtoll` at the `long long` bounds. -/
def clampInt64 (v : Int) : Int :=
  if v < int64Min then int64Min else if int64Max < v then int64Max else v

/-- The truncating C cast `(int32_t)n` applied to an `int64` value:
two's-complement wrap into `[-2^31, 2^31)`. -/
def wrap32 (n : Int) : Int := (n + 2147483648) % 4294967296 - 2147483648

/-- Model of C `strtoll` (64-bit `long long`, base 10) on a NUL-free C string:
`(returned value, ERANGE flag, endp reached the terminator?)`.  Out-of-range
values are clamped to the bounds and flagged ERANGE, per the C standard. -/
def strtoll64 (c : List Char) : Int × Bool × Bool :=
  match strtoScan c with
  | none => (0, false, c.isEmpty)
  | some (neg, mag, rest) =>
    let v : Int := if neg then -(mag : Int) else (mag : Int)
    (clampInt64 v, decide (v < int64Min) || decide (int64Max < v), rest.isEmpty)

/-- Model of C `strtoull` (64-bit, base 10) on a NUL-free C string.  A minus
sign is accepted and the magnitude is negated in the unsigned return type,
i.e. wrapped modulo 2^64 with no error; ERANGE is raised (and the result
saturates) only when the magnitude itself exceeds 2^64-1, per the C standard. -/
def strtoull64 (c : List Char) : Nat × Bool × Bool :=
  match strtoScan c with
  | none => (0, false, c.isEmpty)
  | some (neg, mag, rest) =>
    if uint64Max < mag then (uint64Max, true, rest.isEmpty)
    else ((if neg then (18446744073709551616 - mag) % 18446744073709551616 else mag),
          false, rest.isEmpty)

/-- `ParseInt32(str, out)`: prechecks, `strtol` (64-bit `long` platform), write
`(int32_t)n` through a non-null `out`, then require full consumption, no
ERANGE, and the value within `int32` bounds. -/
def ParseInt32 (str : List Char) (out : Bool) : Except String (Bool × Option Int) :=
  if !ParsePrechecks str then Except.ok (false, none)
  else
    let r := strtoll64 (cstrOf str)
    Except.ok (r.2.2 && !r.2.1 && decide (int32Min ≤ r.1) && decide (r.1 ≤ int32Max),
               if out then some (wrap32 r.1) else none)

/-- `ParseInt64(str, out)`: prechecks, `strtoll`, write `(int64_t)n` through a
non-null `out`, then require full consumption, no ERANGE, and the (already
clamped) value within `int64` bounds. -/
def ParseInt64 (str : List Char) (out : Bool) : Except String (Bool × Option Int) :=
  if !ParsePrechecks str then Except.ok (false, none)
  else
    let r := strtoll64 (cstrOf str)
    Except.ok (r.2.2 && !r.2.1 && decide (int64Min ≤ r.1) && decide (r.1 ≤ int64Max),
               if out then some r.1 else none)

/-- `ParseUint64(str, out)`: prechecks, `strtoull`, write `(uint64_t)n` through
a non-null `out`, then require full consumption, no ERANGE, and the value
within `uint64` bounds — a check that is vacuous on the unsigned result, so a
negated (wrapped) value passes it. -/
def ParseUint64 (str : List Char) (out : Bool) : Except String (Bool × Option Nat) :=
  if !ParsePrechecks str then Except.ok (false, none)
  else
    let r := strtoull64 (cstrOf str)
    Except.ok (r.2.2 && !r.2.1 && decide (0 ≤ r.1) && decide (r.1 ≤ uint64Max),
               if out then some r.1 else none)

/-- Hexadecimal digit test of the C conversion primitives. -/
def isHexDigit (c : Char) : Bool :=
  isDigit c || ('a' ≤ c && c ≤ 'f') || ('A' ≤ c && c ≤ 'F')

/-- Numeric value of a hexadecimal digit character. -/
def hexVal (c : Char) : Nat :=
  if isDigit c then digitVal c
  else if 'a' ≤ c && c ≤ 'f' then c.toNat - 'a'.toNat + 10
  else c.toNat - 'A'.toNat + 10

/-- Scan a run of digits in base `b`, continuing the accumulator and counting
the digits consumed: `(value, count, rest)`. -/
def scanBase (b : Nat) (isd : Char → Bool) (dv : Char → Nat) :
    List Char → Nat → Nat → Nat × Nat × List Char
  | [], acc, cnt => (acc, cnt, [])
  | c :: cs, acc, cnt =>
    if isd c then scanBase b isd dv cs (b * acc + dv c) (cnt + 1) else (acc, cnt, c :: cs)

/-- Scan `digits [ '.' digits ]` in base `b`: the combined numerator, the count
of fractional digits, and the rest; `none` when no digit at all was found. -/
def scanMantissa (b : Nat) (isd : Char → Bool) (dv : Char → Nat) (s : List Char) :
    Option (Nat × Nat × List Char) :=
  let i := scanBase b isd dv s 0 0
  match i.2.2 with
  | '.' :: t =>
    let f := scanBase b isd dv t i.1 0
    if i.2.1 + f.2.1 = 0 then none else some (f.1, f.2.1, f.2.2)
  | r => if i.2.1 = 0 then none else some (i.1, 0, r)

/-- Scan an exponent part `marker sign? digits`; `none` when the marker is not
followed by at least one digit, in which case the caller does not consume it. -/
def scanExp (m1 m2 : Char) (s : List Char) : Option (Int × List Char) :=
  match s with
  | [] => none
  | c :: cs =>
    if c = m1 ∨ c = m2 then
      let p := signSplit cs
      match p.2 with
      | [] => none
      | d :: ds =>
        if isDigit d then
          let r := scanBase 10 isDigit digitVal (d :: ds) 0 0
          some ((if p.1 then -(r.1 : Int) else (r.1 : Int)), r.2.2)
        else none
    else none

/-- Exponent part, or zero exponent and an unconsumed rest. -/
def scanExpOr (m1 m2 : Char) (r : List Char) : Int × List Char :=
  match scanExp m1 m2 r with
  | some p => p
  | none => (0, r)

/-- An exact rational number as an explicit numerator/denominator pair (not
normalized); the denominators this development builds are always positive
powers, so `num / den` is the denoted value. -/
structure RatVal where
  num : Int
  den : Nat
deriving DecidableEq

/-- `a` denotes exactly the integer `z`. -/
def RatVal.eqInt (a : RatVal) (z : Int) : Prop := a.num = z * (a.den : Int)

/-- Exact rational value `±(m / b^fc) * eb^e` of a scanned floating literal. -/
def mkFloatVal (neg : Bool) (m : Nat) (b : Nat) (fc : Nat) (eb : Nat) (e : Int) : RatVal :=
  let n : Nat := m * (if 0 ≤ e then eb ^ e.toNat else 1)
  let d : Nat := b ^ fc * (if 0 ≤ e then 1 else eb ^ (-e).toNat)
  ⟨if neg then -(n : Int) else (n : Int), d⟩

/-- Decimal floating literal: mantissa then optional `e`/`E` exponent. -/
def scanDecFloat (neg : Bool) (s2 : List Char) : Option (RatVal × List Char) :=
  match scanMantissa 10 isDigit digitVal s2 with
  | none => none
  | some (m, fc, r1) =>
    let e := scanExpOr 'e' 'E' r1
    some (mkFloatVal neg m 10 fc 10 e.1, e.2)

/-- Model of the classic-locale `istringstream` double extraction used by
`ParseDouble`: the exact rational value of the longest valid decimal or
(C++11 `num_get`/`strtold`) hexadecimal floating literal prefix, plus the
unconsumed rest; `none` when no valid number starts the input (extraction
failure, which since C++11 writes 0).  The decimal separator is always `'.'`
(classic locale).  The model returns the exact pre-rounding rational value;
every concrete value stated in this development is exactly representable as
an IEEE double, so rounding is the identity on it.  On a failed extraction
the C++ code leaves `*out` unspecified, and the model's written value is not
meant to match the platform there. -/
def scanFloat (s : List Char) : Option (RatVal × List Char) :=
  let p := signSplit (dropSpace s)
  match p.2 with
  | '0' :: x :: t =>
    if x = 'x' ∨ x = 'X' then
      match scanMantissa 16 isHexDigit hexVal t with
      | some (m, fc, r1) =>
        let e := scanExpOr 'p' 'P' r1
        some (mkFloatVal p.1 m 16 fc 2 e.1, e.2)
      | none => scanDecFloat p.1 p.2
    else scanDecFloat p.1 p.2
  | _ => scanDecFloat p.1 p.2

/-- `ParseDouble(str, out)`: prechecks, the `"0x"` guard (lowercase `'x'` only,
as in the source), then stream extraction; success requires `eof` (full
consumption) and no failure. -/
def ParseDouble (str : List Char) (out : Bool) : Except String (Bool × Option RatVal) :=
  if !ParsePrechecks str then Except.ok (false, none)
  else if decide (2 ≤ str.length) && decide (str.headD nulChar = '0') &&
      decide (str.getD 1 nulChar = 'x') then
    Except.ok (false, none)
  else
    match scanFloat str with
    | none => Except.ok (false, if out then some ⟨0, 1⟩ else none)
    | some (v, rest) => Except.ok (rest.isEmpty, if out then some v else none)

deriving instance DecidableEq for Except

/-- The tagged-union JSON value type of `univalue.h`: a tag, the string payload
(the numeric text for `VNUM`, the content for `VSTR`, `"1"` for boolean true),
the object keys, and the child values. -/
inductive VType where
  | VNULL
  | VOBJ
  | VARR
  | VSTR
  | VNUM
  | VBOOL
deriving DecidableEq

inductive UniValue where
  | mk : VType → List Char → List (List Char) → List UniValue → UniValue

def UniValue.typ : UniValue → VType
  | .mk t _ _ _ => t

def UniValue.val : UniValue → List Char
  | .mk _ v _ _ => v

def UniValue.keys : UniValue → List (List Char)
  | .mk _ _ k _ => k

def UniValue.values : UniValue → List UniValue
  | .mk _ _ _ vs => vs

/-- Modelled from the spec: the tag predicate `isObject()` of `univalue.h`. -/
def UniValue.isObject (v : UniValue) : Bool := decide (v.typ = VType.VOBJ)

/-- Modelled from the spec: the tag predicate `isArray()` of `univalue.h`. -/
def UniValue.isArray (v : UniValue) : Bool := decide (v.typ = VType.VARR)

/-- Modelled from the spec: the tag predicate `isBool()` of `univalue.h`. -/
def UniValue.isBool (v : UniValue) : Bool := decide (v.typ = VType.VBOOL)

/-- Modelled from the spec: the tag predicate `isStr()` of `univalue.h`. -/
def UniValue.isStr (v : UniValue) : Bool := decide (v.typ = VType.VSTR)

/-- Modelled from the spec: the tag predicate `isNum()` of `univalue.h`. -/
def UniValue.isNum (v : UniValue) : Bool := decide (v.typ = VType.VNUM)

/-- Modelled from the spec: `getValStr()`, the raw string payload getter. -/
def UniValue.getValStr (v : UniValue) : List Char := v.val

/-- Modelled from the spec: `getBool()`, the stored boolean payload (univalue
stores boolean true as the payload `"1"`). -/
def UniValue.getBool (v : UniValue) : Bool := decide (v.val = "1".data)

def msgNotObj : String := "JSON value is not an object as expected"

def msgNotObjArr : String := "JSON value is not an object or array as expected"

def msgNotBool : String := "JSON value is not a boolean as expected"

def msgNotStr : String := "JSON value is not a string as expected"

def msgNotInt : String := "JSON value is not an integer as expected"

def msgNotNum : String := "JSON value is not a number as expected"

def msgNotArr : String := "JSON value is not an array as expected"

def msgIntRange : String := "JSON integer out of range"

def msgDoubleRange : String := "JSON double out of range"

/-!
Each accessor below is a `const` method of `UniValue`.  The embedding returns
a pair: the C++ return value or thrown exception (`Except`), and the receiver
object after the call — the method bodies never assign to any field, so the
second component is the receiver itself, translated from the absence of any
mutation in the source.
-/

def UniValue.getKeys (v : UniValue) : Except String (List (List Char)) × UniValue :=
  (if !v.isObject then Except.error msgNotObj
   else Except.ok v.keys, v)

def UniValue.getValues (v : UniValue) : Except String (List UniValue) × UniValue :=
  (if !v.isObject && !v.isArray then Except.error msgNotObjArr
   else Except.ok v.values, v)

def UniValue.get_bool (v : UniValue) : Except String Bool × UniValue :=
  (if !v.isBool then Except.error msgNotBool
   else Except.ok v.getBool, v)

def UniValue.get_str (v : UniValue) : Except String (List Char) × UniValue :=
  (if !v.isStr then Except.error msgNotStr
   else Except.ok v.getValStr, v)

def UniValue.get_int (v : UniValue) : Except String Int × UniValue :=
  (if !v.isNum then Except.error msgNotInt
   else
     match ParseInt32 v.getValStr true with
     | Except.error e => Except.error e
     | Except.ok r =>
       if !r.1 then Except.error msgIntRange
       else Except.ok (r.2.getD 0), v)

def UniValue.get_int64 (v : UniValue) : Except String Int × UniValue :=
  (if !v.isNum then Except.error msgNotInt
   else
     match ParseInt64 v.getValStr true with
     | Except.error e => Except.error e
     | Except.ok r =>
       if !r.1 then Except.error msgIntRange
       else Except.ok (r.2.getD 0), v)

def UniValue.get_uint64 (v : UniValue) : Except String Nat × UniValue :=
  (if !decide (v.typ = VType.VNUM) then Except.error msgNotInt
   else
     match ParseUint64 v.getValStr true with
     | Except.error e => Except.error e
     | Except.ok r =>
       if !r.1 then Except.error msgIntRange
       else Except.ok (r.2.getD 0), v)

def UniValue.get_uint32 (v : UniValue) : Except String Nat × UniValue :=
  (if !decide (v.typ = VType.VNUM) then Except.error msgNotInt
   else
     match ParseUint64 v.getValStr true with
     | Except.error e => Except.error e
     | Except.ok r =>
       if !r.1 then Except.error msgIntRange
       else
         let parseval := r.2.getD 0
         if decide (4294967295 ≤ parseval) then Except.error msgIntRange
         else Except.ok (parseval % 4294967296), v)

def UniValue.get_uint16 (v : UniValue) : Except String Nat × UniValue :=
  (if !decide (v.typ = VType.VNUM) then Except.error msgNotInt
   else
     match ParseUint64 v.getValStr true with
     | Except.error e => Except.error e
     | Except.ok r =>
       if !r.1 then Except.error msgIntRange
       else
         let parseval := r.2.getD 0
         if decide (65535 ≤ parseval) then Except.error msgIntRange
         else Except.ok (parseval % 65536), v)

def UniValue.get_uint8 (v : UniValue) : Except String Nat × UniValue :=
  (if !decide (v.typ = VType.VNUM) then Except.error msgNotInt
   else
     match ParseUint64 v.getValStr true with
     | Except.error e => Except.error e
     | Except.ok r =>
       if !r.1 then Except.error msgIntRange
       else
         let parseval := r.2.getD 0
         if decide (255 ≤ parseval) then Except.error msgIntRange
         else Except.ok (parseval % 256), v)

def UniValue.get_real (v : UniValue) : Except String RatVal × UniValue :=
  (if !v.isNum then Except.error msgNotNum
   else
     match ParseDouble v.getValStr true with
     | Except.error e => Except.error e
     | Except.ok r =>
       if !r.1 then Except.error msgDoubleRange
       else Except.ok (r.2.getD ⟨0, 1⟩), v)

def UniValue.get_obj (v : UniValue) : Except String UniValue × UniValue :=
  (if !v.isObject then Except.error msgNotObj
   else Except.ok v, v)

def UniValue.get_array (v : UniValue) : Except String UniValue × UniValue :=
  (if !v.isArray then Except.error msgNotArr
   else Except.ok v, v)

/-- A Number-tagged value with the given stored numeric text. -/
def numOf (s : List Char) : UniValue := UniValue.mk VType.VNUM s [] []

/-- Decimal rendering of a natural number, most significant digit first:
`digitChar` is the inverse of `digitVal` on digits. -/
def digitChar : Nat → Char
  | 0 => '0'
  | 1 => '1'
  | 2 => '2'
  | 3 => '3'
  | 4 => '4'
  | 5 => '5'
  | 6 => '6'
  | 7 => '7'
  | 8 => '8'
  | _ => '9'

/-- Fuel-indexed digit emitter: peel the least significant digit until zero. -/
def decGo : Nat → Nat → List Char → List Char
  | 0, _, acc => acc
  | f + 1, n, acc => if n = 0 then acc else decGo f (n / 10) (digitChar (n % 10) :: acc)

def decimalOfNat (n : Nat) : List Char :=
  if n = 0 then ['0'] else decGo (n + 1) n []

def decimalOfInt (v : Int) : List Char :=
  if v < 0 then '-' :: decimalOfNat (-v).toNat else decimalOfNat v.toNat

/-- Strip one redundant leading `'+'`. -/
def stripPlus (s : List Char) : List Char :=
  match s with
  | [] => []
  | c :: cs => if c = '+' then cs else c :: cs

/-- The digit part carries no superfluous leading zero (a single `'0'` is
allowed). -/
def noLeadZero (s : List Char) : Bool :=
  match s with
  | [] => true
  | c :: rest => !(decide (c = '0') && !rest.isEmpty)

/-- Canonical decimal text: optional sign, then digits with no superfluous
leading zero; `"-0"` (whose parsed value re-renders as `"0"`) is excluded. -/
def canonicalNumText (s : List Char) : Bool :=
  match s with
  | [] => false
  | c :: cs =>
    if c = '-' then !decide (cs.headD '0' = '0')
    else if c = '+' then noLeadZero cs
    else noLeadZero (c :: cs)

/-- Folded numeric value of a digit string, continuing from `a`. -/
def valFold (a : Nat) (l : List Char) : Nat :=
  l.foldl (fun x c => 10 * x + digitVal c) a

/-! ### Helper lemmas -/

lemma cstrLen_ne_of_mem (s : List Char) (h : nulChar ∈ s) : cstrLen s ≠ s.length := by
  induction s with
  | nil => cases h
  | cons c t ih =>
    by_cases hc : c = nulChar
    · subst hc
      simp [cstrLen, cstrOf]
    · have h' : nulChar ∈ t := by
        rcases List.mem_cons.mp h with h0 | h0
        · exact absurd h0.symm hc
        · exact h0
      have hlt := ih h'
      have he : cstrOf (c :: t) = c :: cstrOf t := by
        simp [cstrOf, List.takeWhile_cons, hc]
      simp only [cstrLen, he, List.length_cons]
      simp only [cstrLen] at hlt
      omega

/-- C1: evaluating the code at the spec's failing input: on the Number text
`"-1"`, `ParseUint64` succeeds (the underlying `strtoull` wraps the negated
magnitude modulo 2^64 and the subsequent `uint64` range check is vacuous), so
`get_uint64()` succeeds with 18446744073709551615 instead of failing with the
range error; `get_int64()` succeeds with -1 as the claim states. -/
theorem uint64_accessor_accepts_negative_text :
    ParseUint64 ("-1".data) true = Except.ok (true, some 18446744073709551615) ∧
    (UniValue.get_uint64 (numOf ("-1".data))).1 = Except.ok 18446744073709551615 ∧
    (UniValue.get_int64 (numOf ("-1".data))).1 = Except.ok (-1) :=
  ⟨by rfl, by rfl, by rfl⟩

/-- C2: the narrowing accessors `get_uint32`/`get_uint16`/`get_uint8` reject
the target type's exact maximum (the strict less-than boundary check), both in
general over any Number-tagged value whose text parses to that maximum and at
the concrete boundary texts, while the full-width accessors `get_int`,
`get_int64` and `get_uint64` accept their exact boundary values. -/
theorem narrowing_rejects_exact_max_fullwidth_accepts (v : UniValue)
    (hv : v.typ = VType.VNUM) :
    (ParseUint64 v.getValStr true = Except.ok (true, some 255) →
      (UniValue.get_uint8 v).1 = Except.error msgIntRange) ∧
    (ParseUint64 v.getValStr true = Except.ok (true, some 65535) →
      (UniValue.get_uint16 v).1 = Except.error msgIntRange) ∧
    (ParseUint64 v.getValStr true = Except.ok (true, some 4294967295) →
      (UniValue.get_uint32 v).1 = Except.error msgIntRange) ∧
    (UniValue.get_uint8 (numOf ("255".data))).1 = Except.error msgIntRange ∧
    (UniValue.get_uint8 (numOf ("254".data))).1 = Except.ok 254 ∧
    (UniValue.get_uint16 (numOf ("65535".data))).1 = Except.error msgIntRange ∧
    (UniValue.get_uint32 (numOf ("4294967295".data))).1 = Except.error msgIntRange ∧
    (UniValue.get_uint64 (numOf ("18446744073709551615".data))).1 =
      Except.ok 18446744073709551615 ∧
    (UniValue.get_int (numOf ("2147483647".data))).1 = Except.ok 2147483647 ∧
    (UniValue.get_int64 (numOf ("9223372036854775807".data))).1 =
      Except.ok 9223372036854775807 := by
  refine ⟨?_, ?_, ?_, by rfl, by rfl, by rfl, by rfl, by rfl, by rfl, by rfl⟩ <;>
    intro hp <;> simp [UniValue.get_uint8, UniValue.get_uint16, UniValue.get_uint32, hv, hp]

/-- C2 witness: at the Number value storing `"255"`, `get_uint8` fails with the
range error. -/
theorem narrowing_rejects_exact_max_fullwidth_accepts_w :
    (UniValue.get_uint8 (numOf ("255".data))).1 = Except.error msgIntRange :=
  (narrowing_rejects_exact_max_fullwidth_accepts (numOf ("255".data)) rfl).1 (by rfl)

/-- C3: `ParseInt32` is exact at the `int32` boundaries: both boundary values
are accepted with the stated results, and the two just-out-of-range texts are
rejected (the write through `out` happens before the range check, so the
rejected calls still record the truncated value). -/
theorem parseInt32_boundary_exact :
    ParseInt32 ("2147483647".data) true = Except.ok (true, some 2147483647) ∧
    ParseInt32 ("-2147483648".data) true = Except.ok (true, some (-2147483648)) ∧
    ParseInt32 ("2147483648".data) true = Except.ok (false, some (-2147483648)) ∧
    ParseInt32 ("-2147483649".data) true = Except.ok (false, some 2147483647) :=
  ⟨by rfl, by rfl, by rfl, by rfl⟩

/-- C4: on every value whose tag is not Number, each numeric accessor fails
with the type-mismatch error (the integer accessors with the integer message,
`get_real` with the number message) and never with the range error: the tag
check precedes any parsing. -/
theorem nonnumeric_tag_gives_type_mismatch (v : UniValue)
    (h : v.typ ≠ VType.VNUM) :
    (UniValue.get_int v).1 = Except.error msgNotInt ∧
    (UniValue.get_int64 v).1 = Except.error msgNotInt ∧
    (UniValue.get_uint64 v).1 = Except.error msgNotInt ∧
    (UniValue.get_uint32 v).1 = Except.error msgNotInt ∧
    (UniValue.get_uint16 v).1 = Except.error msgNotInt ∧
    (UniValue.get_uint8 v).1 = Except.error msgNotInt ∧
    (UniValue.get_real v).1 = Except.error msgNotNum := by
  have hb : decide (v.typ = VType.VNUM) = false := decide_eq_false h
  exact ⟨by simp [UniValue.get_int, UniValue.isNum, hb],
         by simp [UniValue.get_int64, UniValue.isNum, hb],
         by simp [UniValue.get_uint64, hb],
         by simp [UniValue.get_uint32, hb],
         by simp [UniValue.get_uint16, hb],
         by simp [UniValue.get_uint8, hb],
         by simp [UniValue.get_real, UniValue.isNum, hb]⟩

/-- C4 witness: at a String-tagged value with payload `"123"`, every numeric
accessor fails with the type-mismatch error. -/
theorem nonnumeric_tag_gives_type_mismatch_w :
    (UniValue.get_int (UniValue.mk VType.VSTR ("123".data) [] [])).1 =
      Except.error msgNotInt ∧
    (UniValue.get_real (UniValue.mk VType.VSTR ("123".data) [] [])).1 =
      Except.error msgNotNum :=
  ⟨(nonnumeric_tag_gives_type_mismatch (UniValue.mk VType.VSTR ("123".data) [] [])
      (by decide)).1,
   (nonnumeric_tag_gives_type_mismatch (UniValue.mk VType.VSTR ("123".data) [] [])
      (by decide)).2.2.2.2.2.2⟩

/-- C5: the shared precheck rejects — and therefore all four parsers fail on —
every string that is empty, starts or ends with ASCII whitespace, or contains
an embedded NUL byte; in particular `" 1"` and `"1 "` are rejected. -/
theorem prechecks_reject_space_empty_nul (s : List Char) (w : Bool)
    (h : s = [] ∨ json_isspace (s.headD nulChar) = true ∨
         json_isspace (s.getLastD nulChar) = true ∨ nulChar ∈ s) :
    ParsePrechecks s = false ∧
    ParseInt32 s w = Except.ok (false, none) ∧
    ParseInt64 s w = Except.ok (false, none) ∧
    ParseUint64 s w = Except.ok (false, none) ∧
    ParseDouble s w = Except.ok (false, none) ∧
    ParseInt32 (" 1".data) w = Except.ok (false, none) ∧
    ParseInt32 ("1 ".data) w = Except.ok (false, none) := by
  have hpre : ParsePrechecks s = false := by
    unfold ParsePrechecks
    split_ifs with h1 h2 h3
    · rfl
    · rfl
    · rfl
    · exfalso
      rcases h with h | h | h | h
      · exact h1 (by simp [h])
      · have hne : s ≠ [] := by intro he; exact h1 (by simp [he])
        have hl : 1 ≤ s.length := List.length_pos.mpr hne
        apply h2
        rw [h]
        simp [hl]
      · have hne : s ≠ [] := by intro he; exact h1 (by simp [he])
        have hl : 1 ≤ s.length := List.length_pos.mpr hne
        apply h2
        rw [h]
        simp [hl]
      · exact h3 ((cstrLen_ne_of_mem s h).symm)
  have hx : ParsePrechecks (" 1".data) = false := by rfl
  have hy : ParsePrechecks ("1 ".data) = false := by rfl
  refine ⟨hpre, by simp [ParseInt32, hpre], by simp [ParseInt64, hpre],
    by simp [ParseUint64, hpre], by simp [ParseDouble, hpre],
    by simp [ParseInt32, hx], by simp [ParseInt32, hy]⟩

/-- C5 witness: the leading-space input `" 1"` is rejected by the precheck and
by `ParseInt32`. -/
theorem prechecks_reject_space_empty_nul_w :
    ParsePrechecks (" 1".data) = false ∧
    ParseInt32 (" 1".data) true = Except.ok (false, none) :=
  ⟨(prechecks_reject_space_empty_nul (" 1".data) true (Or.inr (Or.inl (by rfl)))).1,
   (prechecks_reject_space_empty_nul (" 1".data) true (Or.inr (Or.inl (by rfl)))).2.1⟩

/-- C6 (amended): the hexadecimal guard of `ParseDouble` is lowercase-only:
every string starting `"0x"` is rejected, but a string starting `"0X"` slips
past the guard and is accepted as a hexadecimal float by the underlying
conversion (`ParseDouble "0X1p0"` succeeds with value 1); full consumption
without format failure is required, and parsing always uses the `'.'` decimal
separator (a `','` is not consumed, so `"1,5"` fails).  `ParseDouble "1.5e10"`
succeeds with the exact value 1.5e10 = 15000000000. -/
theorem parseDouble_hex_guard_lowercase (s : List Char) (w : Bool)
    (h : ∃ t, s = '0' :: 'x' :: t) :
    ParseDouble s w = Except.ok (false, none) ∧
    ParseDouble ("0x1p0".data) true = Except.ok (false, none) ∧
    ParseDouble ("1.5e10".data) true = Except.ok (true, some ⟨150000000000, 10⟩) ∧
    RatVal.eqInt ⟨150000000000, 10⟩ 15000000000 ∧
    ParseDouble ("0X1p0".data) true = Except.ok (true, some ⟨1, 1⟩) ∧
    RatVal.eqInt ⟨1, 1⟩ 1 ∧
    ParseDouble ("1,5".data) true = Except.ok (false, some ⟨1, 1⟩) := by
  obtain ⟨t, rfl⟩ := h
  refine ⟨?_, by rfl, by rfl, by norm_num [RatVal.eqInt], by rfl,
    by norm_num [RatVal.eqInt], by rfl⟩
  cases hp : ParsePrechecks ('0' :: 'x' :: t)
  · simp [ParseDouble, hp]
  · simp [ParseDouble, hp, List.getD]

/-- C6 counterexample to the claim as stated: `"0X1p0"` begins with `"0X"`,
yet `ParseDouble` succeeds on it (with value 1) instead of failing. -/
theorem parseDouble_accepts_upper_hex :
    ParseDouble ("0X1p0".data) true = Except.ok (true, some ⟨1, 1⟩) ∧
    RatVal.eqInt ⟨1, 1⟩ 1 :=
  ⟨by rfl, by norm_num [RatVal.eqInt]⟩

/-- C6 witness: the lowercase-prefixed `"0x9"` is rejected. -/
theorem parseDouble_hex_guard_lowercase_w :
    ParseDouble ("0x9".data) true = Except.ok (false, none) :=
  (parseDouble_hex_guard_lowercase ("0x9".data) true ⟨"9".data, rfl⟩).1

/-- C7: all four parsers are total: on every input (and either nullness of the
output pointer) they return an ordinary result through the `Except` channel —
no exceptional outcome is ever produced — communicating failure only through
the boolean plus the optional output slot. -/
theorem parsers_total_no_exception (s : List Char) (w : Bool) :
    (∃ r, ParseInt32 s w = Except.ok r) ∧ (∃ r, ParseInt64 s w = Except.ok r) ∧
    (∃ r, ParseUint64 s w = Except.ok r) ∧ (∃ r, ParseDouble s w = Except.ok r) := by
  refine ⟨?_, ?_, ?_, ?_⟩
  · unfold ParseInt32; split
    · exact ⟨_, rfl⟩
    · exact ⟨_, rfl⟩
  · unfold ParseInt64; split
    · exact ⟨_, rfl⟩
    · exact ⟨_, rfl⟩
  · unfold ParseUint64; split
    · exact ⟨_, rfl⟩
    · exact ⟨_, rfl⟩
  · unfold ParseDouble; split
    · exact ⟨_, rfl⟩
    · split
      · exact ⟨_, rfl⟩
      · split
        · exact ⟨_, rfl⟩
        · exact ⟨_, rfl⟩

/-- C9: every accessor is read-only and idempotent: the receiver after the
call is the untouched value, and repeating the call on it yields the identical
result (same returned value or same error). -/
theorem accessors_preserve_value_idempotent (v : UniValue) :
    (UniValue.getKeys v).2 = v ∧
    UniValue.getKeys ((UniValue.getKeys v).2) = UniValue.getKeys v ∧
    (UniValue.getValues v).2 = v ∧
    UniValue.getValues ((UniValue.getValues v).2) = UniValue.getValues v ∧
    (UniValue.get_bool v).2 = v ∧
    UniValue.get_bool ((UniValue.get_bool v).2) = UniValue.get_bool v ∧
    (UniValue.get_str v).2 = v ∧
    UniValue.get_str ((UniValue.get_str v).2) = UniValue.get_str v ∧
    (UniValue.get_int v).2 = v ∧
    UniValue.get_int ((UniValue.get_int v).2) = UniValue.get_int v ∧
    (UniValue.get_int64 v).2 = v ∧
    UniValue.get_int64 ((UniValue.get_int64 v).2) = UniValue.get_int64 v ∧
    (UniValue.get_uint64 v).2 = v ∧
    UniValue.get_uint64 ((UniValue.get_uint64 v).2) = UniValue.get_uint64 v ∧
    (UniValue.get_uint32 v).2 = v ∧
    UniValue.get_uint32 ((UniValue.get_uint32 v).2) = UniValue.get_uint32 v ∧
    (UniValue.get_uint16 v).2 = v ∧
    UniValue.get_uint16 ((UniValue.get_uint16 v).2) = UniValue.get_uint16 v ∧
    (UniValue.get_uint8 v).2 = v ∧
    UniValue.get_uint8 ((UniValue.get_uint8 v).2) = UniValue.get_uint8 v ∧
    (UniValue.get_real v).2 = v ∧
    UniValue.get_real ((UniValue.get_real v).2) = UniValue.get_real v ∧
    (UniValue.get_obj v).2 = v ∧
    UniValue.get_obj ((UniValue.get_obj v).2) = UniValue.get_obj v ∧
    (UniValue.get_array v).2 = v ∧
    UniValue.get_array ((UniValue.get_array v).2) = UniValue.get_array v :=
  ⟨rfl, rfl, rfl, rfl, rfl, rfl, rfl, rfl, rfl, rfl, rfl, rfl, rfl,
   rfl, rfl, rfl, rfl, rfl, rfl, rfl, rfl, rfl, rfl, rfl, rfl, rfl⟩

/-- C10: a null output pointer is permitted by all four parsers and does not
change the boolean result: the run with a non-null pointer and the run with a
null pointer return the same success bit, and the null-pointer run writes
nothing. -/
theorem parsers_null_out_same_result (s : List Char) :
    (∃ p : Bool × Option Int,
      ParseInt32 s true = Except.ok p ∧ ParseInt32 s false = Except.ok (p.1, none)) ∧
    (∃ p : Bool × Option Int,
      ParseInt64 s true = Except.ok p ∧ ParseInt64 s false = Except.ok (p.1, none)) ∧
    (∃ p : Bool × Option Nat,
      ParseUint64 s true = Except.ok p ∧ ParseUint64 s false = Except.ok (p.1, none)) ∧
    (∃ p : Bool × Option RatVal,
      ParseDouble s true = Except.ok p ∧ ParseDouble s false = Except.ok (p.1, none)) := by
  refine ⟨?_, ?_, ?_, ?_⟩
  · cases hp : ParsePrechecks s <;> simp [ParseInt32, hp]
  · cases hp : ParsePrechecks s <;> simp [ParseInt64, hp]
  · cases hp : ParsePrechecks s <;> simp [ParseUint64, hp]
  · cases hp : ParsePrechecks s
    · simp [ParseDouble, hp]
    · by_cases hg : (2 ≤ s.length ∧ s.head?.getD nulChar = '0') ∧ s[1]?.getD nulChar = 'x'
      · simp [ParseDouble, hp, hg]
      · cases hf : scanFloat s
        · simp [ParseDouble, hp, hg, hf]
        · simp only [ParseDouble, hp, hf]
          simp [hg]

/-! ### Digit and rendering lemmas for the round-trip claim -/

lemma digit_cases (c : Char) (h : isDigit c = true) :
    c = '0' ∨ c = '1' ∨ c = '2' ∨ c = '3' ∨ c = '4' ∨
    c = '5' ∨ c = '6' ∨ c = '7' ∨ c = '8' ∨ c = '9' := by
  simp only [isDigit, Bool.or_eq_true, beq_iff_eq] at h
  tauto

lemma digit_facts (c : Char) (h : isDigit c = true) :
    digitVal c < 10 ∧ digitChar (digitVal c) = c ∧ c ≠ '-' ∧ c ≠ '+' ∧
    (c ≠ '0' → 1 ≤ digitVal c) := by
  rcases digit_cases c h with h0 | h0 | h0 | h0 | h0 | h0 | h0 | h0 | h0 | h0 <;>
    subst h0 <;> exact ⟨by decide, by rfl, by decide, by decide, by decide⟩

lemma valFold_cons (a : Nat) (c : Char) (l : List Char) :
    valFold a (c :: l) = valFold (10 * a + digitVal c) l := rfl

lemma valFold_append_singleton (a : Nat) (l : List Char) (d : Char) :
    valFold a (l ++ [d]) = 10 * valFold a l + digitVal d := by
  simp [valFold, List.foldl_append]

lemma valFold_le (l : List Char) : ∀ a, a ≤ valFold a l := by
  induction l with
  | nil => intro a; simp [valFold]
  | cons c t ih =>
    intro a
    calc a ≤ 10 * a + digitVal c := by omega
    _ ≤ valFold (10 * a + digitVal c) t := ih _
    _ = valFold a (c :: t) := (valFold_cons a c t).symm

lemma valFold_pos (l : List Char) (hne : l ≠ [])
    (hall : ∀ c ∈ l, isDigit c = true) (hz : l.headD '0' ≠ '0') :
    1 ≤ valFold 0 l := by
  cases l with
  | nil => exact absurd rfl hne
  | cons c t =>
    have hd := digit_facts c (hall c (List.mem_cons_self c t))
    have h1 : 1 ≤ digitVal c := hd.2.2.2.2 (by simpa using hz)
    have h2 := valFold_le t (10 * 0 + digitVal c)
    rw [valFold_cons]
    omega

lemma scanDigits_all (l : List Char) : ∀ a, (∀ c ∈ l, isDigit c = true) →
    scanDigits l a = (valFold a l, []) := by
  induction l with
  | nil => intro a _; simp [scanDigits, valFold]
  | cons c t ih =>
    intro a hall
    have hc := hall c (List.mem_cons_self c t)
    simp only [scanDigits, hc, if_true]
    rw [ih _ (fun x hx => hall x (List.mem_cons_of_mem c hx))]
    rfl

lemma scanDigits_rest_nil (l : List Char) : ∀ a m, scanDigits l a = (m, []) →
    (∀ c ∈ l, isDigit c = true) ∧ m = valFold a l := by
  induction l with
  | nil =>
    intro a m h
    simp only [scanDigits] at h
    refine ⟨by simp, ?_⟩
    simp [valFold, (Prod.mk.injEq _ _ _ _).mp h]
  | cons c t ih =>
    intro a m h
    by_cases hc : isDigit c = true
    · simp only [scanDigits, hc, if_true] at h
      obtain ⟨hall, hm⟩ := ih _ _ h
      refine ⟨?_, ?_⟩
      · intro x hx
        rcases List.mem_cons.mp hx with rfl | hx
        · exact hc
        · exact hall x hx
      · rw [hm]; rfl
    · have hcf : isDigit c = false := by revert hc; cases isDigit c <;> simp
      simp only [scanDigits, hcf] at h
      simp at h

lemma decGo_zero (f : Nat) (acc : List Char) : decGo f 0 acc = acc := by
  cases f <;> simp [decGo]

lemma decGo_render (ds : List Char) :
    (∀ c ∈ ds, isDigit c = true) → ds ≠ [] → ds.headD '0' ≠ '0' →
    ∀ acc fuel, valFold 0 ds ≤ fuel → decGo fuel (valFold 0 ds) acc = ds ++ acc := by
  induction ds using List.reverseRecOn with
  | nil => intro _ h; exact absurd rfl h
  | append_singleton l d ih =>
    intro hall hne hz acc fuel hfuel
    have hd : isDigit d = true := hall d (by simp)
    have hdf := digit_facts d hd
    rcases eq_or_ne l [] with rfl | hl
    · have hv : valFold 0 ([] ++ [d]) = digitVal d := by simp [valFold]
      have hz' : d ≠ '0' := by simpa using hz
      have h1 : 1 ≤ digitVal d := hdf.2.2.2.2 hz'
      rw [hv] at hfuel ⊢
      cases fuel with
      | zero => omega
      | succ f =>
        simp only [decGo]
        rw [if_neg (by omega)]
        have hdiv : digitVal d / 10 = 0 := Nat.div_eq_of_lt hdf.1
        have hmod : digitVal d % 10 = digitVal d := Nat.mod_eq_of_lt hdf.1
        rw [hdiv, hmod, decGo_zero, hdf.2.1]
        simp
    · have halll : ∀ c ∈ l, isDigit c = true := fun c hc => hall c (by simp [hc])
      have hzl : l.headD '0' ≠ '0' := by
        cases l with
        | nil => exact absurd rfl hl
        | cons c t => simpa using hz
      have hvpos : 1 ≤ valFold 0 l := valFold_pos l hl halll hzl
      have hsnoc : valFold 0 (l ++ [d]) = 10 * valFold 0 l + digitVal d :=
        valFold_append_singleton 0 l d
      rw [hsnoc] at hfuel ⊢
      cases fuel with
      | zero => omega
      | succ f =>
        simp only [decGo]
        rw [if_neg (by omega)]
        have hdiv : (10 * valFold 0 l + digitVal d) / 10 = valFold 0 l := by omega
        have hmod : (10 * valFold 0 l + digitVal d) % 10 = digitVal d := by omega
        rw [hdiv, hmod]
        have hf : valFold 0 l ≤ f := by omega
        rw [ih halll hl hzl (digitChar (digitVal d) :: acc) f hf, hdf.2.1]
        simp

lemma noLeadZero_of_head_ne (ds : List Char) (h : ds.headD '0' ≠ '0') :
    noLeadZero ds = true := by
  cases ds with
  | nil => simp at h
  | cons c t =>
    have hc : c ≠ '0' := by simpa using h
    simp [noLeadZero, hc]

lemma eq_singleton_zero (ds : List Char) (hdne : ds ≠ []) (hnz : noLeadZero ds = true)
    (hz : ds.headD '0' = '0') : ds = ['0'] := by
  cases ds with
  | nil => exact absurd rfl hdne
  | cons c t =>
    have hc : c = '0' := by simpa using hz
    subst hc
    cases t with
    | nil => rfl
    | cons a b => simp [noLeadZero] at hnz

lemma decimal_render (ds : List Char) (hdne : ds ≠ [])
    (hall : ∀ c ∈ ds, isDigit c = true) (hnz : noLeadZero ds = true) :
    decimalOfNat (valFold 0 ds) = ds := by
  by_cases hz : ds.headD '0' = '0'
  · rw [eq_singleton_zero ds hdne hnz hz]
    rfl
  · have hpos : 1 ≤ valFold 0 ds := valFold_pos ds hdne hall hz
    unfold decimalOfNat
    rw [if_neg (by omega)]
    have h := decGo_render ds hall hdne hz [] (valFold 0 ds + 1) (by omega)
    simpa using h

/-! ### Inversion lemmas for accepted inputs -/

lemma takeWhile_length_eq (p : Char → Bool) (s : List Char)
    (h : (s.takeWhile p).length = s.length) : s.takeWhile p = s := by
  induction s with
  | nil => rfl
  | cons c t ih =>
    cases hc : p c
    · rw [List.takeWhile_cons, hc] at h
      simp at h
    · rw [List.takeWhile_cons, hc] at h ⊢
      simp only [if_true, List.length_cons] at h ⊢
      rw [ih (by omega)]

lemma precheck_parts (s : List Char) (h : ParsePrechecks s = true) :
    s ≠ [] ∧ json_isspace (s.headD nulChar) = false ∧ cstrOf s = s := by
  unfold ParsePrechecks at h
  split_ifs at h with h1 h2 h3
  have hne : s ≠ [] := fun he => h1 (by simp [he])
  have hl : (1 : Nat) ≤ s.length := List.length_pos.mpr hne
  refine ⟨hne, ?_, ?_⟩
  · cases hh : json_isspace (s.headD nulChar)
    · rfl
    · exfalso
      apply h2
      rw [hh]
      simp [hl]
  · have h4 := not_ne_iff.mp h3
    simp only [cstrLen, cstrOf] at h4
    exact takeWhile_length_eq _ s (by omega)

lemma dropSpace_eq_self (s : List Char) (h : json_isspace (s.headD nulChar) = false) :
    dropSpace s = s := by
  cases s with
  | nil => rfl
  | cons c t =>
    have hc : c_isspace c = false := by simpa [c_isspace] using h
    simp [dropSpace, hc]

lemma clampInt64_eq_self (v : Int) (h1 : ¬(v < int64Min)) (h2 : ¬(int64Max < v)) :
    clampInt64 v = v := by
  unfold clampInt64
  rw [if_neg h1, if_neg h2]

lemma wrap32_eq_self (n : Int) (h1 : int32Min ≤ n) (h2 : n ≤ int32Max) : wrap32 n = n := by
  have h1n : (-2147483648 : Int) ≤ n := h1
  have h2n : n ≤ (2147483647 : Int) := h2
  unfold wrap32
  omega

lemma strtoScan_tail (b : Bool) (t : List Char) (neg : Bool) (mag : Nat)
    (h : (match t with
          | [] => (none : Option (Bool × Nat × List Char))
          | c :: cs => if isDigit c then some (b, scanDigits (c :: cs) 0) else none) =
         some (neg, mag, [])) :
    t ≠ [] ∧ (∀ c ∈ t, isDigit c = true) ∧ mag = valFold 0 t ∧ neg = b := by
  cases t with
  | nil => cases h
  | cons d u =>
    by_cases hd : isDigit d = true
    · have h2 : (if isDigit d = true then some (b, scanDigits (d :: u) 0) else none) =
          some (neg, mag, ([] : List Char)) := h
      rw [if_pos hd] at h2
      rw [Option.some.injEq, Prod.mk.injEq] at h2
      obtain ⟨hb, hrest⟩ := h2
      obtain ⟨hall, hv⟩ := scanDigits_rest_nil (d :: u) 0 mag hrest
      exact ⟨by simp, hall, hv, hb.symm⟩
    · have h2 : (if isDigit d = true then some (b, scanDigits (d :: u) 0) else none) =
          some (neg, mag, ([] : List Char)) := h
      rw [if_neg hd] at h2
      cases h2

lemma strtoScan_shape (s : List Char) (neg : Bool) (mag : Nat)
    (hds : dropSpace s = s) (h : strtoScan s = some (neg, mag, [])) :
    ∃ ds, ds ≠ [] ∧ (∀ c ∈ ds, isDigit c = true) ∧ mag = valFold 0 ds ∧
      ((neg = true ∧ s = '-' :: ds) ∨ (neg = false ∧ s = '+' :: ds) ∨
       (neg = false ∧ s = ds ∧ isDigit (s.headD '0') = true)) := by
  have hsplit : strtoScan s =
      (match (signSplit s).2 with
       | [] => none
       | c :: cs =>
         if isDigit c then some ((signSplit s).1, scanDigits (c :: cs) 0) else none) := by
    unfold strtoScan
    rw [hds]
  cases s with
  | nil =>
    rw [hsplit] at h
    simp [signSplit] at h
  | cons c t =>
    by_cases hm : c = '-'
    · subst hm
      have hss : signSplit ('-' :: t) = (true, t) := by simp [signSplit]
      rw [hsplit, hss] at h
      obtain ⟨hne2, hall, hv, hb⟩ := strtoScan_tail true t neg mag h
      exact ⟨t, hne2, hall, hv, Or.inl ⟨hb, rfl⟩⟩
    · by_cases hq : c = '+'
      · subst hq
        have hss : signSplit ('+' :: t) = (false, t) := by simp [signSplit]
        rw [hsplit, hss] at h
        obtain ⟨hne2, hall, hv, hb⟩ := strtoScan_tail false t neg mag h
        exact ⟨t, hne2, hall, hv, Or.inr (Or.inl ⟨hb, rfl⟩)⟩
      · have hss : signSplit (c :: t) = (false, c :: t) := by simp [signSplit, hm, hq]
        rw [hsplit, hss] at h
        obtain ⟨hne2, hall, hv, hb⟩ := strtoScan_tail false (c :: t) neg mag h
        have hdc : isDigit ((c :: t).headD '0') = true := by
          simpa using hall c (List.mem_cons_self c t)
        exact ⟨c :: t, hne2, hall, hv, Or.inr (Or.inr ⟨hb, rfl, hdc⟩)⟩

lemma parseInt32_ok_inv (s : List Char) (v : Int)
    (h : ParseInt32 s true = Except.ok (true, some v)) :
    ParsePrechecks s = true ∧
    ∃ neg mag, strtoScan s = some (neg, mag, []) ∧
      v = (if neg then -(mag : Int) else (mag : Int)) ∧
      int32Min ≤ v ∧ v ≤ int32Max := by
  cases hp : ParsePrechecks s
  · unfold ParseInt32 at h
    rw [hp] at h
    simp at h
  · refine ⟨rfl, ?_⟩
    have hcs : cstrOf s = s := (precheck_parts s hp).2.2
    have hne : s ≠ [] := (precheck_parts s hp).1
    unfold ParseInt32 at h
    rw [hp, hcs] at h
    cases hsc : strtoScan s with
    | none =>
      simp only [strtoll64, hsc] at h
      simp [hne] at h
    | some trip =>
      obtain ⟨neg, mag, rest⟩ := trip
      simp only [strtoll64, hsc] at h
      simp only [Bool.not_true, Bool.false_eq_true, if_false, if_true, Except.ok.injEq,
        Prod.mk.injEq, Option.some.injEq] at h
      obtain ⟨hB, hv⟩ := h
      simp only [Bool.and_eq_true, Bool.not_eq_true', Bool.or_eq_false_iff,
        decide_eq_true_eq, decide_eq_false_iff_not] at hB
      obtain ⟨⟨⟨hrest, hlo64, hhi64⟩, hlo⟩, hhi⟩ := hB
      have hcl : clampInt64 (if neg then -(mag : Int) else (mag : Int)) =
          (if neg then -(mag : Int) else (mag : Int)) := clampInt64_eq_self _ hlo64 hhi64
      rw [hcl] at hlo hhi hv
      have hw : wrap32 (if neg then -(mag : Int) else (mag : Int)) =
          (if neg then -(mag : Int) else (mag : Int)) := wrap32_eq_self _ hlo hhi
      rw [hw] at hv
      have hrest' : rest = [] := by simpa using hrest
      subst hrest'
      exact ⟨neg, mag, rfl, hv.symm, hv ▸ hlo, hv ▸ hhi⟩

lemma parseInt64_ok_of (s : List Char) (neg : Bool) (mag : Nat)
    (hp : ParsePrechecks s = true) (hsc : strtoScan s = some (neg, mag, []))
    (hlo : int32Min ≤ (if neg then -(mag : Int) else (mag : Int)))
    (hhi : (if neg then -(mag : Int) else (mag : Int)) ≤ int32Max) :
    ParseInt64 s true =
      Except.ok (true, some (if neg then -(mag : Int) else (mag : Int))) := by
  have hcs : cstrOf s = s := (precheck_parts s hp).2.2
  have hlo' : (-2147483648 : Int) ≤ (if neg then -(mag : Int) else (mag : Int)) := hlo
  have hhi' : (if neg then -(mag : Int) else (mag : Int)) ≤ (2147483647 : Int) := hhi
  have h1 : ¬((if neg then -(mag : Int) else (mag : Int)) < int64Min) := by
    intro hcon
    have hcon' : (if neg then -(mag : Int) else (mag : Int)) <
        (-9223372036854775808 : Int) := hcon
    omega
  have h2 : ¬(int64Max < (if neg then -(mag : Int) else (mag : Int))) := by
    intro hcon
    have hcon' : (9223372036854775807 : Int) <
        (if neg then -(mag : Int) else (mag : Int)) := hcon
    omega
  have h3 : int64Min ≤ (if neg then -(mag : Int) else (mag : Int)) := by
    show (-9223372036854775808 : Int) ≤ _
    omega
  have h4 : (if neg then -(mag : Int) else (mag : Int)) ≤ int64Max := by
    show _ ≤ (9223372036854775807 : Int)
    omega
  unfold ParseInt64
  rw [hp, hcs]
  simp only [strtoll64, hsc]
  rw [clampInt64_eq_self _ h1 h2]
  simp [h1, h2, h3, h4]

/-- C8 (amended): if `ParseInt32` accepts `s` with value `v`, then `ParseInt64`
accepts `s` with the same value; and when `s` is in canonical decimal form
(optional sign, digits, no superfluous leading zero, not `"-0"` — the
strtol-style parser also accepts redundant leading zeros and `"-0"`, which
cannot re-render to themselves), re-stringifying `v` in decimal reproduces `s`
stripped of a redundant leading `'+'`. -/
theorem parseInt32_int64_agree_roundtrip_canonical (s : List Char) (v : Int)
    (h : ParseInt32 s true = Except.ok (true, some v)) :
    ParseInt64 s true = Except.ok (true, some v) ∧
    (canonicalNumText s = true → decimalOfInt v = stripPlus s) := by
  obtain ⟨hp, neg, mag, hsc, hv, hlo, hhi⟩ := parseInt32_ok_inv s v h
  subst hv
  constructor
  · exact parseInt64_ok_of s neg mag hp hsc hlo hhi
  · intro hc
    have hds := dropSpace_eq_self s (precheck_parts s hp).2.1
    obtain ⟨ds, hdne, hall, hmag, hcase⟩ := strtoScan_shape s neg mag hds hsc
    subst hmag
    rcases hcase with ⟨hneg, hs⟩ | ⟨hneg, hs⟩ | ⟨hneg, hs, hdg⟩
    · subst hneg
      subst hs
      have hz : ds.headD '0' ≠ '0' := by
        simpa [canonicalNumText] using hc
      have hpos : 1 ≤ valFold 0 ds := valFold_pos ds hdne hall hz
      show decimalOfInt (-(valFold 0 ds : Int)) = stripPlus ('-' :: ds)
      have hlt : (-(valFold 0 ds : Int)) < 0 := by
        have h1 : (1 : Int) ≤ (valFold 0 ds : Int) := by exact_mod_cast hpos
        omega
      unfold decimalOfInt
      rw [if_pos hlt]
      have htn : (-(-(valFold 0 ds : Int))).toNat = valFold 0 ds := by simp
      rw [htn, decimal_render ds hdne hall (noLeadZero_of_head_ne ds hz)]
      have hsp : stripPlus ('-' :: ds) = '-' :: ds := by
        show (if ('-' : Char) = '+' then ds else '-' :: ds) = '-' :: ds
        rw [if_neg (by decide)]
      rw [hsp]
    · subst hneg
      subst hs
      have hc' : noLeadZero ds = true := by simpa [canonicalNumText] using hc
      show decimalOfInt ((valFold 0 ds : Int)) = stripPlus ('+' :: ds)
      unfold decimalOfInt
      rw [if_neg (by omega)]
      have htn : ((valFold 0 ds : Int)).toNat = valFold 0 ds := by simp
      rw [htn, decimal_render ds hdne hall hc']
      have hsp : stripPlus ('+' :: ds) = ds := by
        show (if ('+' : Char) = '+' then ds else '+' :: ds) = ds
        rw [if_pos rfl]
      rw [hsp]
    · subst hneg
      subst hs
      obtain ⟨c, t, rfl⟩ := List.exists_cons_of_ne_nil hdne
      have hdc : isDigit c = true := by simpa using hdg
      have hf := digit_facts c hdc
      have hc' : noLeadZero (c :: t) = true := by
        simpa [canonicalNumText, hf.2.2.1, hf.2.2.2.1] using hc
      show decimalOfInt ((valFold 0 (c :: t) : Int)) = stripPlus (c :: t)
      unfold decimalOfInt
      rw [if_neg (by omega)]
      have htn : ((valFold 0 (c :: t) : Int)).toNat = valFold 0 (c :: t) := by simp
      rw [htn, decimal_render (c :: t) (by simp) hall hc']
      have hsp : stripPlus (c :: t) = c :: t := by
        show (if c = '+' then t else c :: t) = c :: t
        rw [if_neg hf.2.2.2.1]
      rw [hsp]

/-- C8 counterexample to the claim as stated: `"07"` is accepted by
`ParseInt32` (value 7), but re-stringifying 7 gives `"7"`, which is not `"07"`
stripped of a leading `'+'` — the round-trip fails on redundant leading
zeros. -/
theorem parseInt32_roundtrip_fails_leading_zero :
    ParseInt32 ("07".data) true = Except.ok (true, some 7) ∧
    stripPlus ("07".data) = "07".data ∧
    decimalOfInt 7 ≠ stripPlus ("07".data) :=
  ⟨by rfl, by rfl, by decide⟩

/-- C8 witness: at the canonical input `"-12"`, `ParseInt64` agrees with
`ParseInt32` and the decimal re-rendering reproduces the input. -/
theorem parseInt32_int64_agree_roundtrip_canonical_w :
    ParseInt64 ("-12".data) true = Except.ok (true, some (-12)) ∧
    decimalOfInt (-12) = stripPlus ("-12".data) :=
  ⟨(parseInt32_int64_agree_roundtrip_canonical ("-12".data) (-12) (by rfl)).1,
   (parseInt32_int64_agree_roundtrip_canonical ("-12".data) (-12) (by rfl)).2 (by rfl)⟩
